import Mathlib

/-!
# Verification of the promo-backend resilient generation core

Shallow embedding of the circuit breaker, retry policy, response validation
and weighted selection logic of `app/ollama_service.py` and `app/main.py`,
together with theorems settling the spec claims about them.

Timestamps (Python `time.time()` floats) are modelled as rationals.
-/

namespace Promo

/-! ## Circuit breaker (`app/ollama_service.py`, class `CircuitBreaker`) -/

/-- The three circuit-breaker states (`CircuitBreakerState` enum). -/
inductive CircuitBreakerState
  | closed
  | opened
  | halfOpen
deriving DecidableEq, Repr

/-- Instance state of `CircuitBreaker.__init__`: configuration plus the
mutable counters `failure_count`, `success_count`, `last_failure_time`,
`state`. -/
structure CircuitBreaker where
  failure_threshold : Nat
  timeout : ℚ
  success_threshold : Nat
  failure_count : Nat
  success_count : Nat
  last_failure_time : Option ℚ
  state : CircuitBreakerState
deriving DecidableEq, Repr

/-- `CircuitBreaker.__init__(failure_threshold, timeout, success_threshold)`:
counters start at zero, no failure instant recorded, state CLOSED. -/
def CircuitBreaker.init (ft : Nat) (tmo : ℚ) (st : Nat) : CircuitBreaker :=
  { failure_threshold := ft
    timeout := tmo
    success_threshold := st
    failure_count := 0
    success_count := 0
    last_failure_time := none
    state := .closed }

/-- `CircuitBreaker.record_success`: reset `failure_count`; in HALF_OPEN
increment `success_count` and close once `success_threshold` is reached. -/
def CircuitBreaker.record_success (b : CircuitBreaker) : CircuitBreaker :=
  let b1 := { b with failure_count := 0 }
  match b1.state with
  | .halfOpen =>
      let b2 := { b1 with success_count := b1.success_count + 1 }
      if b2.success_threshold ≤ b2.success_count then
        { b2 with state := .closed, success_count := 0 }
      else
        b2
  | _ => b1

/-- `CircuitBreaker.record_failure` at time `now`: increment `failure_count`,
zero `success_count`, stamp `last_failure_time`; in CLOSED open the circuit
once the threshold is reached, in HALF_OPEN reopen immediately. -/
def CircuitBreaker.record_failure (b : CircuitBreaker) (now : ℚ) : CircuitBreaker :=
  let b1 := { b with
    failure_count := b.failure_count + 1
    success_count := 0
    last_failure_time := some now }
  match b1.state with
  | .closed =>
      if b1.failure_threshold ≤ b1.failure_count then
        { b1 with state := .opened }
      else
        b1
  | .halfOpen => { b1 with state := .opened }
  | .opened => b1

/-- `CircuitBreaker.can_proceed` at time `now`: returns the boolean decision
and the possibly-updated breaker (OPEN transitions to HALF_OPEN once
`timeout` has elapsed since `last_failure_time`; an OPEN breaker with no
recorded failure instant admits the call unchanged). -/
def CircuitBreaker.can_proceed (b : CircuitBreaker) (now : ℚ) : Bool × CircuitBreaker :=
  match b.state with
  | .closed => (true, b)
  | .halfOpen => (true, b)
  | .opened =>
      match b.last_failure_time with
      | none => (true, b)
      | some lf =>
          if b.timeout ≤ now - lf then
            (true, { b with state := .halfOpen, success_count := 0 })
          else
            (false, b)

/-! ### Call sequences and reachability -/

/-- One externally visible breaker operation. -/
inductive BreakerCall
  | success
  | failure
  | proceed
deriving DecidableEq, Repr

/-- Apply one breaker operation at time `now` (for `proceed`, keep the
post-state and discard the boolean). -/
def applyCall (b : CircuitBreaker) (c : BreakerCall) (now : ℚ) : CircuitBreaker :=
  match c with
  | .success => b.record_success
  | .failure => b.record_failure now
  | .proceed => (b.can_proceed now).2

/-- Breaker states reachable from a freshly initialised breaker by any
sequence of calls issued at non-decreasing times; the rational index is the
time of the most recent call. -/
inductive Reachable : CircuitBreaker → ℚ → Prop
  | init (ft st : Nat) (tmo t0 : ℚ) : Reachable (CircuitBreaker.init ft tmo st) t0
  | step {b : CircuitBreaker} {t t' : ℚ} (c : BreakerCall)
      (h : Reachable b t) (ht : t ≤ t') : Reachable (applyCall b c t') t'

theorem applyCall_failure_threshold (b : CircuitBreaker) (c : BreakerCall) (t : ℚ) :
    (applyCall b c t).failure_threshold = b.failure_threshold := by
  cases c <;>
    simp only [applyCall, CircuitBreaker.record_success, CircuitBreaker.record_failure,
      CircuitBreaker.can_proceed] <;>
    cases b.state <;> (try cases b.last_failure_time) <;> dsimp <;> split <;> rfl

theorem applyCall_timeout (b : CircuitBreaker) (c : BreakerCall) (t : ℚ) :
    (applyCall b c t).timeout = b.timeout := by
  cases c <;>
    simp only [applyCall, CircuitBreaker.record_success, CircuitBreaker.record_failure,
      CircuitBreaker.can_proceed] <;>
    cases b.state <;> (try cases b.last_failure_time) <;> dsimp <;> split <;> rfl

/-- The inductive invariant behind the breaker's Open characterisation:
a CLOSED breaker is strictly below its failure threshold, and a HALF_OPEN
breaker's last failure (if any) lies at least `timeout` in the past. -/
def BreakerInv (b : CircuitBreaker) (t : ℚ) : Prop :=
  (b.state = .closed → b.failure_count < b.failure_threshold) ∧
  (b.state = .halfOpen → ∀ lf : ℚ, b.last_failure_time = some lf → b.timeout ≤ t - lf)

theorem breakerInv_step (b : CircuitBreaker) (t t' : ℚ) (c : BreakerCall)
    (hinv : BreakerInv b t) (hft : 1 ≤ b.failure_threshold) (htt : t ≤ t') :
    BreakerInv (applyCall b c t') t' := by
  obtain ⟨ft, tmo, st, fc, sc, lft, s⟩ := b
  obtain ⟨h1, h2⟩ := hinv
  simp only [BreakerInv] at h1 h2 ⊢
  simp only at hft
  cases c with
  | success =>
      simp only [applyCall, CircuitBreaker.record_success]
      cases s with
      | closed => exact ⟨fun _ => hft, by simp⟩
      | opened => refine ⟨fun h => ?_, fun h => ?_⟩ <;> simp at h
      | halfOpen =>
          dsimp only
          split
          · exact ⟨fun _ => hft, by simp⟩
          · refine ⟨fun h => ?_, fun _ lf hlf => ?_⟩
            · simp at h
            · have := h2 rfl lf hlf
              simp only at hlf ⊢
              linarith
  | failure =>
      simp only [applyCall, CircuitBreaker.record_failure]
      cases s with
      | closed =>
          dsimp only
          split
          · refine ⟨fun h => ?_, fun h => ?_⟩ <;> simp at h
          · next hlt =>
              refine ⟨fun _ => ?_, fun h => ?_⟩
              · simp only at hlt ⊢
                omega
              · simp at h
      | opened => refine ⟨fun h => ?_, fun h => ?_⟩ <;> simp at h
      | halfOpen => refine ⟨fun h => ?_, fun h => ?_⟩ <;> simp at h
  | proceed =>
      simp only [applyCall, CircuitBreaker.can_proceed]
      cases s with
      | closed =>
          exact ⟨fun _ => h1 rfl, fun h => by simp at h⟩
      | halfOpen =>
          refine ⟨fun h => by simp at h, fun _ lf hlf => ?_⟩
          have := h2 rfl lf hlf
          linarith
      | opened =>
          cases lft with
          | none => refine ⟨fun h => by simp at h, fun h => by simp at h⟩
          | some lf =>
              dsimp only
              split
              · next helapsed =>
                  refine ⟨fun h => ?_, fun _ lf' hlf' => ?_⟩
                  · simp at h
                  · simp only [Option.some.injEq] at hlf'
                    subst hlf'
                    simp only at helapsed ⊢
                    linarith
              · refine ⟨fun h => by simp at h, fun h => by simp at h⟩

theorem breakerInv_of_reachable (b : CircuitBreaker) (t : ℚ) (hr : Reachable b t) :
    1 ≤ b.failure_threshold → BreakerInv b t := by
  induction hr with
  | init ft st tmo t0 =>
      intro hft
      exact ⟨fun _ => hft, fun h => by simp [CircuitBreaker.init] at h⟩
  | step c h ht ih =>
      intro hft
      rename_i b' t1 t2
      have hft' : 1 ≤ b'.failure_threshold := by
        rwa [applyCall_failure_threshold] at hft
      exact breakerInv_step b' t1 t2 c (ih hft') hft' ht

/-! ### Claim C1: the Open-state characterisation -/

/-- C1 (amended). For every reachable breaker state (threshold at least 1),
if `failure_count` has reached `failure_threshold` and the elapsed time since
`last_failure_time` is strictly less than `timeout`, then the state is Open.
This is the left-to-right half of the spec's claimed equivalence; the other
direction fails (see the counterexample). -/
theorem c1_open_of_overthreshold_recent
    (b : CircuitBreaker) (t now lf : ℚ)
    (hr : Reachable b t) (hft : 1 ≤ b.failure_threshold) (ht : t ≤ now)
    (hcount : b.failure_threshold ≤ b.failure_count)
    (hlf : b.last_failure_time = some lf)
    (hrecent : now - lf < b.timeout) :
    b.state = .opened := by
  obtain ⟨h1, h2⟩ := breakerInv_of_reachable b t hr hft
  cases hs : b.state with
  | closed =>
      have := h1 hs
      omega
  | halfOpen =>
      have := h2 hs lf hlf
      linarith
  | opened => rfl

/-- C1 witness trace: one failure on a breaker with threshold 1. -/
def c1WitnessBreaker : CircuitBreaker :=
  applyCall (CircuitBreaker.init 1 60 2) .failure 0

theorem c1WitnessBreaker_eq : c1WitnessBreaker =
    { failure_threshold := 1, timeout := 60, success_threshold := 2,
      failure_count := 1, success_count := 0, last_failure_time := some 0,
      state := .opened } := by
  norm_num [c1WitnessBreaker, applyCall, CircuitBreaker.init, CircuitBreaker.record_failure]

/-- Witness for `c1_open_of_overthreshold_recent` at a concrete trace. -/
theorem c1_open_of_overthreshold_recent_witness : c1WitnessBreaker.state = .opened := by
  have hr : Reachable c1WitnessBreaker 0 :=
    Reachable.step .failure (Reachable.init 1 2 60 0) le_rfl
  exact c1_open_of_overthreshold_recent c1WitnessBreaker 0 0 0 hr
    (by rw [c1WitnessBreaker_eq]) le_rfl
    (by rw [c1WitnessBreaker_eq])
    (by rw [c1WitnessBreaker_eq])
    (by rw [c1WitnessBreaker_eq]; norm_num)

/-- The trace refuting the spec's equivalence: five failures open the
breaker, `can_proceed` after the timeout moves it to HALF_OPEN, one success
resets `failure_count` to 0, and one more failure reopens the breaker with
`failure_count = 1 < 5`. -/
def c1CounterBreaker : CircuitBreaker :=
  applyCall (applyCall (applyCall
    (applyCall (applyCall (applyCall (applyCall (applyCall
      (CircuitBreaker.init 5 60 2) .failure 0) .failure 0) .failure 0) .failure 0)
      .failure 0)
    .proceed 60) .success 60) .failure 60

theorem c1CounterBreaker_eq : c1CounterBreaker =
    { failure_threshold := 5, timeout := 60, success_threshold := 2,
      failure_count := 1, success_count := 0, last_failure_time := some 60,
      state := .opened } := by
  norm_num [c1CounterBreaker, applyCall, CircuitBreaker.init,
    CircuitBreaker.record_failure, CircuitBreaker.record_success,
    CircuitBreaker.can_proceed]

/-- C1 counterexample: a reachable state that is Open at time 60 with
`failure_count = 1 < 5 = failure_threshold` and a failure instant 0 seconds
ago, so the claimed equivalence `Open ⟺ failure_count ≥ threshold ∧
elapsed < timeout` is false at this state. -/
theorem c1_counterexample :
    Reachable c1CounterBreaker 60 ∧
    c1CounterBreaker.state = .opened ∧
    c1CounterBreaker.failure_count = 1 ∧
    c1CounterBreaker.failure_threshold = 5 ∧
    c1CounterBreaker.last_failure_time = some 60 ∧
    (60 : ℚ) - 60 < c1CounterBreaker.timeout ∧
    ¬(c1CounterBreaker.state = .opened ↔
        (c1CounterBreaker.failure_threshold ≤ c1CounterBreaker.failure_count ∧
          (60 : ℚ) - 60 < c1CounterBreaker.timeout)) := by
  refine ⟨?_, by rw [c1CounterBreaker_eq], by rw [c1CounterBreaker_eq],
    by rw [c1CounterBreaker_eq], by rw [c1CounterBreaker_eq],
    by rw [c1CounterBreaker_eq]; norm_num,
    by rw [c1CounterBreaker_eq]; norm_num⟩
  have h0 : Reachable (CircuitBreaker.init 5 60 2) 0 := Reachable.init 5 2 60 0
  have h1 := Reachable.step .failure h0 le_rfl
  have h2 := Reachable.step .failure h1 le_rfl
  have h3 := Reachable.step .failure h2 le_rfl
  have h4 := Reachable.step .failure h3 le_rfl
  have h5 := Reachable.step .failure h4 le_rfl
  have h6 := Reachable.step .proceed h5 (show (0 : ℚ) ≤ 60 by norm_num)
  have h7 := Reachable.step .success h6 le_rfl
  exact Reachable.step .failure h7 le_rfl

/-! ### Claim C7: threshold consecutive failures open the breaker -/

/-- Apply `record_failure` once per listed timestamp, in order. -/
def failTimes (b : CircuitBreaker) : List ℚ → CircuitBreaker
  | [] => b
  | tm :: ts => failTimes (b.record_failure tm) ts

theorem record_failure_closed_ge (b : CircuitBreaker) (tm : ℚ)
    (h : b.state = .closed) (hge : b.failure_threshold ≤ b.failure_count + 1) :
    b.record_failure tm =
      { b with failure_count := b.failure_count + 1, success_count := 0,
               last_failure_time := some tm, state := .opened } := by
  obtain ⟨ft, tmo, st, fc, sc, lft, s⟩ := b
  simp only at h
  subst h
  simp only at hge
  simp [CircuitBreaker.record_failure, hge]

theorem record_failure_closed_lt (b : CircuitBreaker) (tm : ℚ)
    (h : b.state = .closed) (hlt : ¬ b.failure_threshold ≤ b.failure_count + 1) :
    b.record_failure tm =
      { b with failure_count := b.failure_count + 1, success_count := 0,
               last_failure_time := some tm } := by
  obtain ⟨ft, tmo, st, fc, sc, lft, s⟩ := b
  simp only at h
  subst h
  simp only at hlt
  simp [CircuitBreaker.record_failure, hlt]

theorem failTimes_opens (ts : List ℚ) :
    ∀ b : CircuitBreaker, b.state = .closed →
      b.failure_count + ts.length = b.failure_threshold → 1 ≤ ts.length →
      (failTimes b ts).state = .opened ∧
      (failTimes b ts).last_failure_time = ts.getLast? ∧
      (failTimes b ts).timeout = b.timeout := by
  induction ts with
  | nil => intro b _ _ hlen; simp at hlen
  | cons tm ts ih =>
      intro b hclosed hcount _
      cases ts with
      | nil =>
          have hge : b.failure_threshold ≤ b.failure_count + 1 := by
            simp only [List.length_cons, List.length_nil] at hcount
            omega
          have heq := record_failure_closed_ge b tm hclosed hge
          have hstep : failTimes b [tm] = b.record_failure tm := rfl
          rw [hstep, heq]
          exact ⟨rfl, by simp, rfl⟩
      | cons tm2 ts2 =>
          have hlt : ¬ b.failure_threshold ≤ b.failure_count + 1 := by
            intro hge
            simp only [List.length_cons] at hcount
            omega
          have heq := record_failure_closed_lt b tm hclosed hlt
          have hstep : failTimes b (tm :: tm2 :: ts2) =
              failTimes (b.record_failure tm) (tm2 :: ts2) := rfl
          rw [hstep]
          obtain ⟨h1, h2, h3⟩ := ih (b.record_failure tm)
            (by rw [heq]; exact hclosed)
            (by
              rw [heq]
              show b.failure_count + 1 + (tm2 :: ts2).length = b.failure_threshold
              simp only [List.length_cons] at hcount ⊢
              omega)
            (by simp)
          refine ⟨h1, ?_, ?_⟩
          · rw [h2, List.getLast?_cons_cons]
          · rw [h3, heq]

/-- C7. Starting from any Closed breaker with `failure_count = 0`, positive
timeout and positive threshold, a sequence of `failure_threshold` consecutive
`record_failure` calls leaves the breaker Open, and a `can_proceed` call made
before `timeout` has elapsed since the last failure returns false. -/
theorem c7_threshold_failures_open_then_deny
    (b : CircuitBreaker) (ts : List ℚ) (now tl : ℚ)
    (hclosed : b.state = .closed) (hcount : b.failure_count = 0)
    (_hpos : 0 < b.timeout) (hft : 1 ≤ b.failure_threshold)
    (hlen : ts.length = b.failure_threshold)
    (htl : ts.getLast? = some tl) (hnow : now - tl < b.timeout) :
    (failTimes b ts).state = .opened ∧
    ((failTimes b ts).can_proceed now).1 = false := by
  obtain ⟨hopen, hlast, htmo⟩ := failTimes_opens ts b hclosed (by omega) (by omega)
  refine ⟨hopen, ?_⟩
  rw [htl] at hlast
  have hnotle : ¬ ((failTimes b ts).timeout ≤ now - tl) := by
    rw [htmo]; linarith
  simp [CircuitBreaker.can_proceed, hopen, hlast, hnotle]

/-- Witness for `c7_threshold_failures_open_then_deny`: threshold 2,
failures at times 0 and 1, probe at time 1. -/
theorem c7_threshold_failures_open_then_deny_witness :
    (failTimes (CircuitBreaker.init 2 60 2) [0, 1]).state = .opened ∧
    ((failTimes (CircuitBreaker.init 2 60 2) [0, 1]).can_proceed 1).1 = false :=
  c7_threshold_failures_open_then_deny (CircuitBreaker.init 2 60 2) [0, 1] 1 1
    rfl rfl (by norm_num [CircuitBreaker.init]) (by norm_num [CircuitBreaker.init])
    rfl rfl (by norm_num [CircuitBreaker.init])

/-! ### Claim C10: Open breaker with no recorded failure instant -/

/-- C10. If the breaker state is Open but `last_failure_time` is `None`,
`can_proceed` returns true and leaves the breaker completely unchanged: no
transition to HalfOpen and no counter reset. -/
theorem c10_open_no_failure_time_proceeds
    (b : CircuitBreaker) (now : ℚ)
    (hs : b.state = .opened) (hl : b.last_failure_time = none) :
    b.can_proceed now = (true, b) := by
  simp [CircuitBreaker.can_proceed, hs, hl]

/-- Witness for `c10_open_no_failure_time_proceeds` on a concrete state. -/
theorem c10_open_no_failure_time_proceeds_witness :
    ({ failure_threshold := 5, timeout := 60, success_threshold := 2,
       failure_count := 0, success_count := 0, last_failure_time := none,
       state := .opened } : CircuitBreaker).can_proceed 0 =
      (true, { failure_threshold := 5, timeout := 60, success_threshold := 2,
               failure_count := 0, success_count := 0, last_failure_time := none,
               state := .opened }) :=
  c10_open_no_failure_time_proceeds _ 0 rfl rfl

/-! ## Errors and retry policy (`OllamaService._retry_with_backoff`) -/

/-- The Python exception classes relevant to the generation client. -/
inductive ErrClass
  | ollamaRateLimit
  | ollamaCircuitBreaker
  | ollamaJSONParse
  | ollamaTimeout
  | ollamaAPI
  | valueError
  | genericException
deriving DecidableEq, Repr

/-- A raised exception: its class and its `str(e)` message. -/
structure PyError where
  cls : ErrClass
  msg : String
deriving DecidableEq, Repr

/-- The classes caught by the dedicated non-retryable `except` clause:
`OllamaRateLimitError`, `OllamaCircuitBreakerError`, `OllamaJSONParseError`. -/
def nonRetryableClass (c : ErrClass) : Bool :=
  match c with
  | .ollamaRateLimit => true
  | .ollamaCircuitBreaker => true
  | .ollamaJSONParse => true
  | _ => false

/-- `pat` occurs as a contiguous substring of `s` (Python `pat in s`). -/
def containsSub (s pat : List Char) : Bool :=
  match s with
  | [] => pat.isEmpty
  | c :: rest => pat.isPrefixOf (c :: rest) || containsSub rest pat

/-- `str(e).lower()` viewed as a character list. -/
def lowerChars (s : String) : List Char := s.toList.map Char.toLower

/-- Python `any(keyword in str(e).lower() for keyword in ['timeout',
'network', 'connection', '5'])`. -/
def isRetryableMsg (msg : String) : Bool :=
  (["timeout", "network", "connection", "5"] : List String).any
    (fun kw => containsSub (lowerChars msg) kw.toList)

/-- One invocation outcome of the wrapped operation (`func` in
`_retry_with_backoff`): a returned value or a raised exception. -/
inductive Outcome (α : Type)
  | ok (v : α)
  | err (e : PyError)
deriving Repr

/-- Observable result of a `_retry_with_backoff` run: the returned value or
the propagated exception, the number of invocations of the operation, and
the total seconds slept between attempts. -/
structure RetryResult (α : Type) where
  result : Except PyError α
  invocations : Nat
  totalSleep : Nat
deriving Repr

/-- The loop body of `_retry_with_backoff`: `attempt` is the 0-based loop
index, `fuel` the remaining iterations of `range(max_retries)`, `invs` and
`slept` the accounting so far.  Non-retryable classes re-raise immediately;
other exceptions re-raise when no keyword matches or on the last attempt,
and otherwise sleep `base_delay * 2 ** attempt` and continue. -/
def retryLoop {α : Type} (op : Nat → Outcome α) (maxRetries baseDelay : Nat) :
    Nat → Nat → Nat → Nat → RetryResult α
  | 0, _, invs, slept =>
      ⟨.error ⟨.ollamaAPI, "all retry attempts exhausted"⟩, invs, slept⟩
  | fuel + 1, attempt, invs, slept =>
      match op attempt with
      | .ok v => ⟨.ok v, invs + 1, slept⟩
      | .err e =>
          if nonRetryableClass e.cls then
            ⟨.error e, invs + 1, slept⟩
          else if !isRetryableMsg e.msg || attempt == maxRetries - 1 then
            ⟨.error e, invs + 1, slept⟩
          else
            retryLoop op maxRetries baseDelay fuel (attempt + 1) (invs + 1)
              (slept + baseDelay * 2 ^ attempt)

/-- `OllamaService._retry_with_backoff` with its fixed `max_retries = 4` and
`base_delay = 1`. -/
def retry_with_backoff {α : Type} (op : Nat → Outcome α) : RetryResult α :=
  retryLoop op 4 1 4 0 0 0

/-! ### Claim C8: attempt and sleep accounting -/

/-- C8. An operation that always raises a retryable error is invoked exactly
4 times with total sleep 1*(2^0 + 2^1 + 2^2) = 7 seconds; an operation that
raises a non-retryable error on the first attempt is invoked exactly once
with no sleep. -/
theorem c8_retry_accounting {α : Type} (e1 e2 : PyError) (op2 : Nat → Outcome α)
    (h1 : nonRetryableClass e1.cls = false) (h2 : isRetryableMsg e1.msg = true)
    (h3 : nonRetryableClass e2.cls = true) (h4 : op2 0 = .err e2) :
    retry_with_backoff (fun _ => (Outcome.err e1 : Outcome α)) =
      ⟨.error e1, 4, 7⟩ ∧
    retry_with_backoff op2 = ⟨.error e2, 1, 0⟩ := by
  constructor
  · simp [retry_with_backoff, retryLoop, h1, h2]
  · simp [retry_with_backoff, retryLoop, h3, h4]

/-- Witness for `c8_retry_accounting` with a timeout-style retryable error
and a rate-limit non-retryable error. -/
theorem c8_retry_accounting_witness :
    retry_with_backoff (fun _ => (Outcome.err ⟨.genericException, "timeout"⟩ : Outcome Unit)) =
      ⟨.error ⟨.genericException, "timeout"⟩, 4, 7⟩ ∧
    retry_with_backoff (fun _ => (Outcome.err ⟨.ollamaRateLimit, "429"⟩ : Outcome Unit)) =
      ⟨.error ⟨.ollamaRateLimit, "429"⟩, 1, 0⟩ :=
  c8_retry_accounting ⟨.genericException, "timeout"⟩ ⟨.ollamaRateLimit, "429"⟩
    ((fun _ => Outcome.err ⟨.ollamaRateLimit, "429"⟩ : Nat → Outcome Unit)) rfl rfl rfl rfl

/-! ### Claim C3: default classification of unmatched errors -/

/-- C3 counterexample: an always-raised generic error whose message "boom"
matches none of the retry keywords is propagated immediately with exactly
one invocation and no sleep, so it is NOT "treated as retryable by default"
as the claim states (that would give 4 invocations here). -/
theorem c3_counterexample :
    retry_with_backoff (fun _ => (Outcome.err ⟨.genericException, "boom"⟩ : Outcome Unit)) =
      ⟨.error ⟨.genericException, "boom"⟩, 1, 0⟩ ∧
    (1 : Nat) ≠ 4 :=
  ⟨rfl, by decide⟩

/-- C3 (amended). An error outside the non-retryable classes whose message
matches none of the retryable keywords is treated as NON-retryable: it is
propagated immediately on the attempt where it occurs, with no further
attempts and no backoff sleep. -/
theorem c3_unmatched_error_not_retried {α : Type} (op : Nat → Outcome α) (e : PyError)
    (hcls : nonRetryableClass e.cls = false)
    (hmsg : isRetryableMsg e.msg = false)
    (hop : op 0 = .err e) :
    retry_with_backoff op = ⟨.error e, 1, 0⟩ := by
  simp [retry_with_backoff, retryLoop, hcls, hmsg, hop]

/-- Witness for `c3_unmatched_error_not_retried` on the "boom" error. -/
theorem c3_unmatched_error_not_retried_witness :
    retry_with_backoff (fun _ => (Outcome.err ⟨.valueError, "boom"⟩ : Outcome Unit)) =
      ⟨.error ⟨.valueError, "boom"⟩, 1, 0⟩ :=
  c3_unmatched_error_not_retried (fun _ => Outcome.err ⟨.valueError, "boom"⟩)
    ⟨.valueError, "boom"⟩ rfl rfl rfl

/-! ## Weighted offer selection (`app/main.py`, `select_random_promo`,
STEP 3) -/

/-- The accumulating walk of STEP 3: starting from running sum `cum`, select
the first item whose cumulative weight satisfies `rand ≤ cumulative_weight`;
`none` when the walk completes without selecting. -/
def selectLoop {α : Type} (weightOf : α → ℚ) (rand : ℚ) : ℚ → List α → Option α
  | _, [] => none
  | cum, o :: rest =>
      let cum2 := cum + weightOf o
      if rand ≤ cum2 then some o else selectLoop weightOf rand cum2 rest

/-- The weighted selection of `select_random_promo` as a function of the
drawn value `rand` (`random.uniform(0, total_weight)` in the source): the
walk over the eligible offers, with the source's defensive fallback
`selected_offer = eligible_offers[0]` when the walk selects nothing. -/
def select_random_promo {α : Type} (eligible : List α) (weightOf : α → ℚ)
    (rand : ℚ) : Option α :=
  match selectLoop weightOf rand 0 eligible with
  | some o => some o
  | none => eligible.head?

/-! ### Claim C2: the defensive fallback -/

/-- C2 counterexample: with two items of weight 1 and a drawn value 3 the
walk completes without selecting, and the code falls back to the FIRST
item, not the last one the claim states. -/
theorem c2_counterexample :
    selectLoop (fun _ => (1 : ℚ)) 3 0 [1, 2] = none ∧
    select_random_promo [1, 2] (fun _ => (1 : ℚ)) 3 = some 1 ∧
    ([1, 2] : List Nat).getLast? = some 2 ∧
    select_random_promo [1, 2] (fun _ => (1 : ℚ)) 3 ≠ some 2 := by
  refine ⟨?_, ?_, by simp, ?_⟩
  · norm_num [selectLoop]
  · norm_num [select_random_promo, selectLoop]
  · norm_num [select_random_promo, selectLoop]

/-- C2 (amended). For every non-empty candidate list, if the accumulating
walk completes without any candidate's cumulative weight satisfying the
selection condition, the selector deterministically selects the FIRST item
of the list rather than raising an error. -/
theorem c2_fallback_first {α : Type} (l : List α) (weightOf : α → ℚ) (rand : ℚ)
    (x : α) (hx : l.head? = some x)
    (hnone : selectLoop weightOf rand 0 l = none) :
    select_random_promo l weightOf rand = some x := by
  rw [select_random_promo, hnone, hx]

/-- Witness for `c2_fallback_first` on the two-element list. -/
theorem c2_fallback_first_witness :
    select_random_promo [7, 8] (fun _ => (1 : ℚ)) 5 = some 7 :=
  c2_fallback_first [7, 8] (fun _ => (1 : ℚ)) 5 7 rfl (by norm_num [selectLoop])

/-! ### Claim C4: the [10, 5, 1] example -/

/-- The example offer pool: identifiers paired with weights 10, 5, 1. -/
def offers1051 : List (Nat × ℚ) := [(1, 10), (2, 5), (3, 1)]

/-- C4 counterexample: at the boundary draw `r = 10` the walk condition
`rand <= cumulative_weight` already selects offer 1 (consistently with the
claim's own "first offer whose cumulative weight sum is >= r" reading), so
the claim's half-open interval `[10, 15) -> offer 2` is wrong at `r = 10`. -/
theorem c4_counterexample :
    select_random_promo offers1051 Prod.snd 10 = some (1, 10) ∧
    select_random_promo offers1051 Prod.snd 10 ≠ some (2, 5) := by
  constructor
  · norm_num [select_random_promo, selectLoop, offers1051]
  · norm_num [select_random_promo, selectLoop, offers1051]

/-- C4 (amended). Over the weights [10, 5, 1] (total 16) the selection walk
maps drawn values in [0, 10] to offer 1, in (10, 15] to offer 2 and in
(15, 16] to offer 3: the first offer whose cumulative weight sum is >= r,
with each boundary value belonging to the earlier offer. -/
theorem c4_weighted_intervals (r : ℚ) :
    (offers1051.map Prod.snd).sum = 16 ∧
    (r ≤ 10 → select_random_promo offers1051 Prod.snd r = some (1, 10)) ∧
    (10 < r → r ≤ 15 → select_random_promo offers1051 Prod.snd r = some (2, 5)) ∧
    (15 < r → r ≤ 16 → select_random_promo offers1051 Prod.snd r = some (3, 1)) := by
  refine ⟨by norm_num [offers1051], fun h1 => ?_, fun h1 h2 => ?_, fun h1 h2 => ?_⟩
  · simp only [select_random_promo, selectLoop, offers1051]
    norm_num [h1]
  · have hn1 : ¬ (r ≤ 0 + 10) := by linarith
    simp only [select_random_promo, selectLoop, offers1051]
    rw [if_neg hn1]
    norm_num [h2]
  · have hn1 : ¬ (r ≤ 0 + 10) := by linarith
    have hn2 : ¬ (r ≤ 0 + 10 + 5) := by linarith
    simp only [select_random_promo, selectLoop, offers1051]
    rw [if_neg hn1, if_neg hn2]
    norm_num [h2]

/-- Witness for `c4_weighted_intervals` at the draw `r = 12`. -/
theorem c4_weighted_intervals_witness :
    select_random_promo offers1051 Prod.snd 12 = some (2, 5) :=
  ((c4_weighted_intervals 12).2.2.1 (by norm_num) (by norm_num))

/-! ## Response validation (`OllamaService._generate_text_internal`,
the envelope-unwrap and structure-validation sections) -/

/-- Parsed JSON values (the result of `json.loads`). -/
inductive Json
  | null
  | bool (b : Bool)
  | num (q : ℚ)
  | str (s : String)
  | arr (xs : List Json)
  | obj (kvs : List (String × Json))

/-- Dictionary key lookup (Python `var['k']` / `'k' in var`). -/
def Json.get? (v : Json) (k : String) : Option Json :=
  match v with
  | .obj kvs => (kvs.find? (fun p => p.1 == k)).map (fun p => p.2)
  | _ => none

/-- Python `'k' in var` for a parsed dictionary. -/
def hasKey (v : Json) (k : String) : Bool := (Json.get? v k).isSome

/-- The envelope unwrap: some models wrap the array in an object keyed by
`variations`, `texts` or `results`; the first present key wins, otherwise
the value is left as is. -/
def unwrapVariations (v : Json) : Json :=
  match v with
  | .obj kvs =>
      match Json.get? (.obj kvs) "variations" with
      | some inner => inner
      | none =>
          match Json.get? (.obj kvs) "texts" with
          | some inner => inner
          | none =>
              match Json.get? (.obj kvs) "results" with
              | some inner => inner
              | none => .obj kvs
  | _ => v

/-- Build the `OllamaJSONParseError` carrying message `m`. -/
def mkParseErr (m : String) : PyError := ⟨.ollamaJSONParse, m⟩

/-- The per-element validation loop (`for i, var in enumerate(variations)`):
an element that is not a dictionary or lacks the `text` key raises a parse
error citing the index `i`; a missing `cta` key is patched with the default
"Learn More". -/
def validateEach : Nat → List Json → Except PyError (List Json)
  | _, [] => .ok []
  | i, v :: rest =>
      match v with
      | .obj kvs =>
          if hasKey (.obj kvs) "text" then
            let v2 := if hasKey (.obj kvs) "cta" then Json.obj kvs
              else Json.obj (kvs ++ [("cta", .str "Learn More")])
            (validateEach (i + 1) rest).map (fun tail => v2 :: tail)
          else
            .error (mkParseErr ("Variation " ++ toString i ++ " missing text field"))
      | _ => .error (mkParseErr ("Variation " ++ toString i ++ " is not a dictionary"))

/-- The response-validation stage of `_generate_text_internal`, applied to
the value produced by `json.loads`: unwrap a recognised envelope, require a
non-empty list, validate each element. -/
def validateResponse (parsed : Json) : Except PyError (List Json) :=
  match unwrapVariations parsed with
  | .arr xs =>
      match xs with
      | [] => .error (mkParseErr "Received empty list of variations")
      | _ => validateEach 0 xs
  | _ => .error (mkParseErr "Expected list of variations")

/-! ### Claim C5: body-text requirement and CTA default -/

/-- C5 counterexample: an element whose `text` field is present but EMPTY is
accepted (with the default CTA synthesized), while the claim demands a parse
error whenever the element lacks a body-text field that is a non-empty
string — the code only checks key presence, never non-emptiness. -/
theorem c5_counterexample :
    validateResponse (.arr [.obj [("text", .str "")]]) =
      .ok [.obj [("text", .str ""), ("cta", .str "Learn More")]] := rfl

theorem validateEach_missing_text (pre : List Json) :
    ∀ (i : Nat) (kvs : List (String × Json)) (rest : List Json),
      (∀ v ∈ pre, ∃ kv : List (String × Json), v = .obj kv ∧ hasKey v "text" = true) →
      hasKey (.obj kvs) "text" = false →
      validateEach i (pre ++ .obj kvs :: rest) =
        .error (mkParseErr ("Variation " ++ toString (i + pre.length) ++
          " missing text field")) := by
  induction pre with
  | nil =>
      intro i kvs rest _ hmiss
      simp only [List.nil_append, validateEach, hmiss, Bool.false_eq_true, if_false,
        List.length_nil, Nat.add_zero]
  | cons v pre ih =>
      intro i kvs rest hgood hmiss
      obtain ⟨kv, hv, htext⟩ := hgood v (by simp)
      subst hv
      have hrest : ∀ w ∈ pre, ∃ kw : List (String × Json), w = .obj kw ∧
          hasKey w "text" = true := fun w hw => hgood w (by simp [hw])
      have hrec := ih (i + 1) kvs rest hrest hmiss
      have harith : i + 1 + pre.length = i + (pre.length + 1) := by omega
      rw [harith] at hrec
      simp only [List.cons_append, validateEach, htext, if_true, List.append_eq,
        List.length_cons]
      rw [hrec]
      rfl

/-- C5 (amended). Validation raises a parse error citing the offending
index whenever some element (all earlier elements being dictionaries with a
`text` key) lacks the `text` KEY — the value of the key, in particular
non-emptiness of the string, is never checked; input `[{"cta": "Go"}]`
yields a parse error, and an element missing only `cta` succeeds with the
synthesized default CTA "Learn More". -/
theorem c5_text_key_required_cta_defaulted :
    (∀ (pre rest : List Json) (kvs : List (String × Json)),
      (∀ v ∈ pre, ∃ kv : List (String × Json), v = .obj kv ∧ hasKey v "text" = true) →
      hasKey (.obj kvs) "text" = false →
      validateResponse (.arr (pre ++ .obj kvs :: rest)) =
        .error (mkParseErr ("Variation " ++ toString pre.length ++
          " missing text field"))) ∧
    validateResponse (.arr [.obj [("cta", .str "Go")]]) =
      .error (mkParseErr "Variation 0 missing text field") ∧
    (∀ s : String, validateResponse (.arr [.obj [("text", .str s)]]) =
      .ok [.obj [("text", .str s), ("cta", .str "Learn More")]]) := by
  refine ⟨fun pre rest kvs hgood hmiss => ?_, rfl, fun s => ?_⟩
  · have hne : pre ++ Json.obj kvs :: rest ≠ [] := by
      intro h
      exact absurd (List.append_eq_nil.mp h).2 (by simp)
    have := validateEach_missing_text pre 0 kvs rest hgood hmiss
    simp only [Nat.zero_add] at this
    cases hp : pre ++ Json.obj kvs :: rest with
    | nil => exact absurd hp hne
    | cons a as =>
        simp only [validateResponse, unwrapVariations, hp] at this ⊢
        exact this
  · simp [validateResponse, unwrapVariations, validateEach, hasKey, Json.get?,
      Except.map]

/-- Witness for `c5_text_key_required_cta_defaulted` on the spec's example
inputs: `[{"cta": "Go"}]` fails at index 0, `[{"text": "A"}]` succeeds with
the default CTA. -/
theorem c5_text_key_required_cta_defaulted_witness :
    validateResponse (.arr [.obj [("cta", .str "Go")]]) =
      .error (mkParseErr "Variation 0 missing text field") ∧
    validateResponse (.arr [.obj [("text", .str "A")]]) =
      .ok [.obj [("text", .str "A"), ("cta", .str "Learn More")]] :=
  ⟨c5_text_key_required_cta_defaulted.2.1,
   c5_text_key_required_cta_defaulted.2.2 "A"⟩

/-! ## The Generate orchestration
(`OllamaService.generate_text_variations`) -/

/-- The arguments of `generate_text_variations`. -/
structure GenRequest where
  offer_name : String
  offer_description : String
  destination_url : String
  offer_type : String
  tone : String
  length_category : String
  num_variations : Int
deriving Repr

/-- The `TextTone` enum values. -/
def toneValues : List String :=
  ["professional", "casual", "urgent", "friendly", "exciting"]

/-- The `TextLength` enum values. -/
def lengthValues : List String := ["short", "medium", "long"]

/-- Python `not s or not s.strip()`: the string is empty or consists only
of whitespace. -/
def blankStr (s : String) : Bool := s.toList.all Char.isWhitespace

/-- The parameter-validation block of `generate_text_variations`: the three
string fields must be non-empty after stripping, `num_variations` must lie
in 1..30, and tone and length must be members of their enums. -/
def validRequest (r : GenRequest) : Bool :=
  !blankStr r.offer_name && !blankStr r.offer_description &&
  !blankStr r.destination_url &&
  decide (1 ≤ r.num_variations) && decide (r.num_variations ≤ 30) &&
  toneValues.contains r.tone && lengthValues.contains r.length_category

/-- The `OllamaCircuitBreakerError` raised when the breaker denies. -/
def circuitOpenErr : PyError :=
  ⟨.ollamaCircuitBreaker,
   "Circuit breaker is OPEN. Ollama API is currently unavailable. Please try again later."⟩

/-- Observable outcome of one `generate_text_variations` call. -/
structure GenOutcome where
  result : Except PyError (List Json)
  breaker : CircuitBreaker
  netInvocations : Nat
  breakerFailures : Nat

/-- `generate_text_variations` as a function of the request, the breaker
state, the time `t0` of the breaker check, the time `t1` of the breaker
update, and the per-attempt outcomes `op` of `_generate_text_internal`
(the network call plus response validation).  Mirrors the source order:
parameter validation (`ValueError`, no breaker involvement), the
`can_proceed` gate (raise `OllamaCircuitBreakerError`, zero network
invocations), then `_retry_with_backoff` around `op` with `record_success`
on success and exactly one `record_failure` before re-raising on failure. -/
def generate_text_variations (r : GenRequest) (b : CircuitBreaker) (t0 t1 : ℚ)
    (op : Nat → Outcome (List Json)) : GenOutcome :=
  if !validRequest r then
    ⟨.error ⟨.valueError, "invalid parameters"⟩, b, 0, 0⟩
  else
    let pr := b.can_proceed t0
    if !pr.1 then
      ⟨.error circuitOpenErr, pr.2, 0, 0⟩
    else
      let rr := retry_with_backoff op
      match rr.result with
      | .ok v => ⟨.ok v, pr.2.record_success, rr.invocations, 0⟩
      | .error e => ⟨.error e, pr.2.record_failure t1, rr.invocations, 1⟩

/-! ### Claim C6: one breaker failure per failed Generate call -/

/-- C6. Whenever the retry wrapper propagates an error — no matter how many
internal attempts it made — the Generate call records exactly one breaker
failure and re-raises that error; in particular a rate-limit or parse error
raised by the first attempt propagates with exactly one recorded breaker
failure. -/
theorem c6_one_breaker_failure_per_call
    (r : GenRequest) (b : CircuitBreaker) (t0 t1 : ℚ)
    (op : Nat → Outcome (List Json)) (e : PyError)
    (hv : validRequest r = true) (hcp : (b.can_proceed t0).1 = true)
    (herr : (retry_with_backoff op).result = .error e) :
    (generate_text_variations r b t0 t1 op).breakerFailures = 1 ∧
    (generate_text_variations r b t0 t1 op).result = .error e ∧
    (generate_text_variations r b t0 t1 op).breaker =
      (b.can_proceed t0).2.record_failure t1 ∧
    (∀ (op2 : Nat → Outcome (List Json)) (e2 : PyError),
      nonRetryableClass e2.cls = true → op2 0 = .err e2 →
      (generate_text_variations r b t0 t1 op2).breakerFailures = 1 ∧
      (generate_text_variations r b t0 t1 op2).result = .error e2) := by
  have hmain : ∀ (op3 : Nat → Outcome (List Json)) (e3 : PyError),
      (retry_with_backoff op3).result = .error e3 →
      generate_text_variations r b t0 t1 op3 =
        ⟨.error e3, (b.can_proceed t0).2.record_failure t1,
          (retry_with_backoff op3).invocations, 1⟩ := by
    intro op3 e3 herr3
    simp only [generate_text_variations, hv, Bool.not_true, Bool.false_eq_true,
      if_false, hcp]
    rw [herr3]
  refine ⟨?_, ?_, ?_, ?_⟩
  · rw [hmain op e herr]
  · rw [hmain op e herr]
  · rw [hmain op e herr]
  · intro op2 e2 hcls hop
    have herr2 : (retry_with_backoff op2).result = .error e2 := by
      simp [retry_with_backoff, retryLoop, hop, hcls]
    exact ⟨by rw [hmain op2 e2 herr2], by rw [hmain op2 e2 herr2]⟩

/-- A concretely valid request used by the Generate witnesses. -/
def sampleRequest : GenRequest :=
  { offer_name := "AI Tools Bundle"
    offer_description := "Complete collection"
    destination_url := "https://example.com/bundle"
    offer_type := "affiliate"
    tone := "professional"
    length_category := "medium"
    num_variations := 3 }

/-- Witness for `c6_one_breaker_failure_per_call`: a fresh breaker, an
operation that always times out; the call records exactly one failure. -/
theorem c6_one_breaker_failure_per_call_witness :
    (generate_text_variations sampleRequest (CircuitBreaker.init 5 60 2) 0 0
      (fun _ => Outcome.err ⟨.ollamaTimeout, "timeout"⟩)).breakerFailures = 1 :=
  (c6_one_breaker_failure_per_call sampleRequest (CircuitBreaker.init 5 60 2) 0 0
    (fun _ => Outcome.err ⟨.ollamaTimeout, "timeout"⟩) ⟨.ollamaTimeout, "timeout"⟩
    (by decide) rfl rfl).1

/-! ### Claim C9: a denied breaker check makes no network call -/

/-- C9. For every valid request, a Generate call made while the breaker
denies admission raises the circuit-breaker unavailable error and performs
zero invocations of the network operation. -/
theorem c9_denied_breaker_no_network
    (r : GenRequest) (b : CircuitBreaker) (t0 t1 : ℚ)
    (op : Nat → Outcome (List Json))
    (hv : validRequest r = true) (hcp : (b.can_proceed t0).1 = false) :
    generate_text_variations r b t0 t1 op =
      ⟨.error circuitOpenErr, (b.can_proceed t0).2, 0, 0⟩ := by
  simp only [generate_text_variations, hv, Bool.not_true, Bool.false_eq_true,
    if_false, hcp, Bool.not_false, if_true]

/-- An Open breaker with a failure recorded at time 0. -/
def openBreaker : CircuitBreaker :=
  { failure_threshold := 5, timeout := 60, success_threshold := 2,
    failure_count := 5, success_count := 0, last_failure_time := some 0,
    state := .opened }

/-- Witness for `c9_denied_breaker_no_network`: probing `openBreaker` at
time 10 (before the 60-second timeout) is denied and Generate makes zero
network invocations. -/
theorem c9_denied_breaker_no_network_witness :
    generate_text_variations sampleRequest openBreaker 10 10
      (fun _ => Outcome.err ⟨.ollamaTimeout, "timeout"⟩) =
      ⟨.error circuitOpenErr, (openBreaker.can_proceed 10).2, 0, 0⟩ :=
  c9_denied_breaker_no_network sampleRequest openBreaker 10 10
    (fun _ => Outcome.err ⟨.ollamaTimeout, "timeout"⟩) (by decide)
    (by norm_num [openBreaker, CircuitBreaker.can_proceed])

end Promo
